import Mathlib

/-!
Verification of the HR-Dashboard data-transformation and metrics pipeline
(`src/data_processing.py`, the ingestion gate in `src/app.py`, and the
survival-curve computation in `src/src/pages/advanced_analytics.py`).

Modelling conventions (shallow embedding):
* Timestamps are modelled at day resolution as integers (days on a linear
  calendar); pandas date differences `.dt.days` become plain integer
  subtraction.  `today` (`pd.Timestamp(datetime.now())`) is an integer
  parameter.
* Floating point is modelled by `ℚ`.  A pandas `NaN` produced by an
  aggregation (mean of an empty selection) is modelled as `Option ℚ = none`;
  a cell that can be null (`NaT`/`NaN`) is an `Option` field.
* A DataFrame is a structure holding a list of rows together with one
  presence flag per optional column; `flag = false` means the column is
  absent from the table (in which case the corresponding per-row payloads
  are ignored by every operation, mirroring `if col in df.columns` guards).
* Accessing an absent column (`df['X']` with `X` not among the columns)
  raises `KeyError` in pandas; the pipeline is therefore embedded in
  `Except String`, and `np.where(cond, a, b)` evaluates `cond`, `a` and `b`
  eagerly, exactly as Python does.
* `numpy` `.round(1)` rounds half to even; `.astype(int)` and Python
  `int()` truncate toward zero.  Both are modelled explicitly below.
* `pandas.Series.mode()` returns the modal values sorted ascending;
  `.iloc[0]` therefore selects the smallest modal value.
-/

/-- Round half to even (the rounding used by `numpy.round`). -/
def roundHalfEven (q : ℚ) : ℤ :=
  let n := ⌊q⌋
  let r := q - n
  if r < 1/2 then n
  else if 1/2 < r then n + 1
  else if n % 2 = 0 then n else n + 1

/-- `Series.round(1)`: round to one decimal digit, half to even. -/
def round1 (q : ℚ) : ℚ :=
  (roundHalfEven (10 * q) : ℚ) / 10

/-- Truncation toward zero (`astype(int)` / Python `int()` on a float). -/
def ratTrunc (q : ℚ) : ℤ :=
  if 0 ≤ q then ⌊q⌋ else ⌈q⌉

/-- `Series.mean()`: `NaN` (here `none`) on an empty selection. -/
def meanQ (l : List ℚ) : Option ℚ :=
  if l = [] then none else some (l.sum / l.length)

/-- Civil calendar from a linear day count (days since 1970-01-01),
returning `(year, month, day)`.  Standard days-to-civil conversion. -/
def civilFromDays (z : ℤ) : ℤ × ℕ × ℕ :=
  let z' := z + 719468
  let era : ℤ := (if 0 ≤ z' then z' else z' - 146096) / 146097
  let doe : ℤ := z' - era * 146097
  let yoe : ℤ := (doe - doe / 1460 + doe / 36524 - doe / 146096) / 365
  let y : ℤ := yoe + era * 400
  let doy : ℤ := doe - (365 * yoe + yoe / 4 - yoe / 100)
  let mp : ℤ := (5 * doy + 2) / 153
  let d : ℤ := doy - (153 * mp + 2) / 5 + 1
  let m : ℤ := if mp < 10 then mp + 3 else mp - 9
  (if 2 < m then y else y + 1, m.toNat, d.toNat)

/-- `Timestamp.year` (`.dt.year`). -/
def yearOf (z : ℤ) : ℤ := (civilFromDays z).1

/-- `.dt.to_period('M')`, modelled as the `(year, month)` pair that the
period string "YYYY-MM" denotes. -/
def monthPeriodOf (z : ℤ) : ℤ × ℕ := ((civilFromDays z).1, (civilFromDays z).2.1)

/-- `.dt.to_period('Q')`, modelled as the `(year, quarter)` pair that the
period string "YYYYQn" denotes. -/
def quarterPeriodOf (z : ℤ) : ℤ × ℕ :=
  ((civilFromDays z).1, ((civilFromDays z).2.1 - 1) / 3 + 1)

/-- One raw row of the Master Sheet, after the permissive date parsing of
`pd.to_datetime(..., errors='coerce')`: date cells are `Option` integers
(`none` = `NaT`, covering both empty and unparseable cells), free-text
cells are `Option String` (`none` = `NaN`). -/
structure RawRecord where
  status : Option String := none
  joinDate : Option ℤ := none
  exitDate : Option ℤ := none
  birthday : Option ℤ := none
  probEnd : Option ℤ := none
  typ : Option String := none
  vendor : Option String := none
  nationality : Option String := none
  exitReasonList : Option String := none
  gender : Option String := none
  department : Option String := none
  position : Option String := none
  exitType : Option String := none
  deriving Repr, DecidableEq

/-- A raw table (post schema-normalisation names): rows plus one presence
flag per column that `process_data` probes with `col in df.columns`. -/
structure RawFrame where
  rows : List RawRecord := []
  hasStatus : Bool := true
  hasJoinDate : Bool := false
  hasExitDate : Bool := false
  hasBirthday : Bool := false
  hasProbEnd : Bool := false
  hasType : Bool := false
  hasVendor : Bool := false
  hasNationality : Bool := false
  hasExitReasonList : Bool := false
  hasGender : Bool := true
  hasDepartment : Bool := true
  hasPosition : Bool := true
  hasExitType : Bool := true
  deriving Repr, DecidableEq

/-- `Age` per row: `((today - Birthday).days / 365.25).fillna(0).astype(int)`. -/
def ageVal (today : ℤ) (r : RawRecord) : ℤ :=
  match r.birthday with
  | none => 0
  | some b => ratTrunc ((today - b : ℤ) / (365.25 : ℚ))

/-- `Tenure (Months)` per row:
`np.where(status == 'Active', ((today-join).days/30.44).fillna(0),
((exit-join).days/30.44).fillna(0)).round(1)`. -/
def tenureVal (today : ℤ) (r : RawRecord) : ℚ :=
  let raw : ℚ :=
    if r.status = some "Active" then
      match r.joinDate with
      | some j => (today - j : ℤ) / (30.44 : ℚ)
      | none => 0
    else
      match r.exitDate, r.joinDate with
      | some e, some j => (e - j : ℤ) / (30.44 : ℚ)
      | _, _ => 0
  round1 raw

/-- `Probation Completed` per row — the nested `np.where` of
`process_data` (comparisons against a null date are `False`). -/
def probVal (today : ℤ) (r : RawRecord) : String :=
  if (match r.probEnd with | some e => decide (e ≤ today) | none => false) then
    "Completed"
  else if r.status = some "Departed" then
    if (match r.probEnd, r.exitDate with
        | some e, some x => decide (x < e)
        | _, _ => false) then
      "Left During Probation"
    else
      "Completed Before Exit"
  else if r.probEnd.isSome then "In Probation" else "No Data"

/-- The in-place categorical fills of `process_data`
(`Vendor` → 'Direct Hire', `Nationality` → 'Unknown',
`Exit ReasonList` → ''), each applied only when its column exists. -/
def fillRow (f : RawFrame) (r : RawRecord) : RawRecord :=
  { r with
    vendor := if f.hasVendor then some (r.vendor.getD "Direct Hire") else r.vendor
    nationality := if f.hasNationality then some (r.nationality.getD "Unknown") else r.nationality
    exitReasonList := if f.hasExitReasonList then some (r.exitReasonList.getD "") else r.exitReasonList }

/-- The processed table: the (fill-updated) source columns plus one
`Option`al column per derived field (`none` = column not created). -/
structure ProcFrame where
  base : RawFrame
  age : Option (List ℤ)
  tenure : Option (List ℚ)
  joinYear : Option (List (Option ℤ))
  joinMonth : Option (List (Option (ℤ × ℕ)))
  joinQuarter : Option (List (Option (ℤ × ℕ)))
  exitYear : Option (List (Option ℤ))
  exitMonth : Option (List (Option (ℤ × ℕ)))
  probation : Option (List String)
  employmentType : List String
  deriving Repr, DecidableEq

/-- `process_data` (src/data_processing.py, lines 12–95).  Dates arrive
already parsed (see `RawRecord`).  The `np.where` expressions of the
Tenure and Probation blocks evaluate *all* their arguments, so the series
`df['Employee Status']` and `df['Exit Date']` are indexed whenever the
block runs; indexing an absent column raises `KeyError`, modelled by
`Except.error`, in Python evaluation order. -/
def procResult (today : ℤ) (f : RawFrame) : ProcFrame :=
  { base := { f with rows := f.rows.map (fillRow f) }
    age := if f.hasBirthday then some (f.rows.map (ageVal today)) else none
    tenure := if f.hasJoinDate then some (f.rows.map (tenureVal today)) else none
    joinYear := if f.hasJoinDate then some (f.rows.map (fun r => r.joinDate.map yearOf)) else none
    joinMonth := if f.hasJoinDate then some (f.rows.map (fun r => r.joinDate.map monthPeriodOf)) else none
    joinQuarter := if f.hasJoinDate then some (f.rows.map (fun r => r.joinDate.map quarterPeriodOf)) else none
    exitYear := if f.hasExitDate then some (f.rows.map (fun r => r.exitDate.map yearOf)) else none
    exitMonth := if f.hasExitDate then some (f.rows.map (fun r => r.exitDate.map monthPeriodOf)) else none
    probation := if f.hasProbEnd then some (f.rows.map (probVal today)) else none
    employmentType := f.rows.map (fun r => if f.hasType then r.typ.getD "Unknown" else "Unknown") }

def processData (today : ℤ) (f : RawFrame) : Except String ProcFrame :=
  if f.hasJoinDate ∧ ¬ f.hasStatus then .error "KeyError: Employee Status"
  else if f.hasJoinDate ∧ ¬ f.hasExitDate then .error "KeyError: Exit Date"
  else if f.hasProbEnd ∧ ¬ f.hasStatus then .error "KeyError: Employee Status"
  else if f.hasProbEnd ∧ ¬ f.hasExitDate then .error "KeyError: Exit Date"
  else .ok (procResult today f)

/-- Inversion: a successful run returns exactly `procResult`. -/
lemma processData_ok_eq {today : ℤ} {f : RawFrame} {p : ProcFrame}
    (h : processData today f = .ok p) : p = procResult today f := by
  unfold processData at h
  split_ifs at h <;> try exact Except.noConfusion h
  injection h with h'
  exact h'.symm

/-- Inversion: a successful run means none of the column-access error
conditions held. -/
lemma processData_ok_conds {today : ℤ} {f : RawFrame} {p : ProcFrame}
    (h : processData today f = .ok p) :
    ¬(f.hasJoinDate ∧ ¬ f.hasStatus) ∧ ¬(f.hasJoinDate ∧ ¬ f.hasExitDate) ∧
    ¬(f.hasProbEnd ∧ ¬ f.hasStatus) ∧ ¬(f.hasProbEnd ∧ ¬ f.hasExitDate) := by
  unfold processData at h
  split_ifs at h with h1 h2 h3 h4 <;> try exact Except.noConfusion h
  exact ⟨h1, h2, h3, h4⟩

/-- C4 failing input: a table with a `Join Date` column (and the required
`Employee Status`) but no `Exit Date` column, one Departed row. -/
def c4Frame : RawFrame :=
  { rows := [{ status := some "Departed", joinDate := some 20000 }]
    hasStatus := true, hasJoinDate := true, hasExitDate := false }

/-- C4: evaluating the field deriver on a table that has a `Join Date`
column but no `Exit Date` column: the Tenure block's `np.where` eagerly
evaluates `df['Exit Date'] - df['Join Date']`, so `process_data` raises
`KeyError: 'Exit Date'` instead of completing — contradicting the claim
(and the repository's own test `test_tenure_without_exit_date_column`). -/
theorem processData_keyerror_on_missing_exit_date :
    processData 20100 c4Frame = .error "KeyError: Exit Date" := by
  rfl

instance decExProbLe (o : Option ℤ) (t : ℤ) : Decidable (∃ e, o = some e ∧ e ≤ t) :=
  match o with
  | none => isFalse (by simp)
  | some e => if h : e ≤ t then isTrue ⟨e, rfl, h⟩ else isFalse (by simp [h])

instance decExProbLt (o p : Option ℤ) : Decidable (∃ e x, o = some e ∧ p = some x ∧ x < e) :=
  match o, p with
  | some e, some x => if h : x < e then isTrue ⟨e, x, rfl, rfl, h⟩ else isFalse (by simp [h])
  | none, _ => isFalse (by simp)
  | some _, none => isFalse (by simp)

/-- Claim C2's precedence, written from its own wording: (1) a non-null
end date that is ≤ now gives `Completed`; (2) else, for Departed records,
a non-null end date with Exit Date < end date gives `Left During
Probation`, otherwise `Completed Before Exit`; (3) else a non-null end
date gives `In Probation` and a null one `No Data`. -/
def claimProbVal (today : ℤ) (r : RawRecord) : String :=
  if ∃ e, r.probEnd = some e ∧ e ≤ today then "Completed"
  else if r.status = some "Departed" then
    if ∃ e x, r.probEnd = some e ∧ r.exitDate = some x ∧ x < e then "Left During Probation"
    else "Completed Before Exit"
  else if r.probEnd ≠ none then "In Probation"
  else "No Data"

lemma probVal_eq_claim (t : ℤ) (r : RawRecord) : probVal t r = claimProbVal t r := by
  unfold probVal claimProbVal
  rcases hp : r.probEnd with _ | e <;> rcases hx : r.exitDate with _ | x <;>
    simp [hp, hx]

/-- C2: on every successfully processed table, the `Probation Completed`
column is present exactly when the source table has a `Probation Period
End Date` column, and each record's value is given by the claim's
precedence function `claimProbVal`. -/
theorem probation_column_spec (t : ℤ) (f : RawFrame) (p : ProcFrame)
    (h : processData t f = Except.ok p) :
    (f.hasProbEnd = false → p.probation = none) ∧
    (f.hasProbEnd = true → p.probation = some (f.rows.map (claimProbVal t))) := by
  have hp := processData_ok_eq h
  subst hp
  have hfun : probVal t = claimProbVal t := funext (probVal_eq_claim t)
  constructor
  · intro hb
    simp [procResult, hb]
  · intro hb
    simp [procResult, hb, hfun]

/-- Sample table for the C2 witness: probation column present, one record
per branch of the classifier. -/
def c2Frame : RawFrame :=
  { rows :=
      [ { status := some "Active", probEnd := some 19970, exitDate := none }
      , { status := some "Active", probEnd := some 20030, exitDate := none }
      , { status := some "Active", probEnd := none, exitDate := none }
      , { status := some "Departed", probEnd := some 20030, exitDate := some 19990 }
      , { status := some "Departed", probEnd := none, exitDate := some 19990 } ]
    hasStatus := true, hasExitDate := true, hasProbEnd := true }

theorem probation_column_spec_witness :
    (c2Frame.hasProbEnd = false → (procResult 20000 c2Frame).probation = none) ∧
    (c2Frame.hasProbEnd = true →
      (procResult 20000 c2Frame).probation = some (c2Frame.rows.map (claimProbVal 20000))) :=
  probation_column_spec 20000 c2Frame (procResult 20000 c2Frame) rfl

/-- C9: a record whose status is not `Active` and whose Exit Date is null
(or unparseable) gets Tenure exactly 0 — the very value a genuine
zero-tenure record (Departed with Exit Date = Join Date) gets. -/
lemma round1_zero : round1 0 = 0 := by
  have h1 : roundHalfEven 0 = 0 := by
    unfold roundHalfEven
    norm_num
  unfold round1
  rw [mul_zero, h1]
  norm_num

theorem tenure_zero_for_null_exit (t : ℤ) (r : RawRecord) (d : ℤ)
    (hs : r.status ≠ some "Active") (hj : r.joinDate.isSome = true)
    (he : r.exitDate = none) :
    tenureVal t r = 0 ∧
    tenureVal t { status := some "Departed", joinDate := some d, exitDate := some d } = 0 := by
  constructor
  · unfold tenureVal
    rw [if_neg hs, he]
    have hm : (match (none : Option ℤ), r.joinDate with
        | some e, some j => ((e - j : ℤ) : ℚ) / (30.44 : ℚ)
        | _, _ => (0 : ℚ)) = 0 := by
      rcases r.joinDate with _ | j <;> rfl
    simp only [hm]
    exact round1_zero
  · show round1 (((d - d : ℤ) : ℚ) / (30.44 : ℚ)) = 0
    have hd : ((d - d : ℤ) : ℚ) / (30.44 : ℚ) = 0 := by
      norm_num
    rw [hd]
    exact round1_zero

theorem tenure_zero_for_null_exit_witness :
    tenureVal 20000 { status := some "Departed", joinDate := some 19900, exitDate := none } = 0 ∧
    tenureVal 20000 { status := some "Departed", joinDate := some 7, exitDate := some 7 } = 0 :=
  tenure_zero_for_null_exit 20000
    { status := some "Departed", joinDate := some 19900, exitDate := none } 7
    (by decide) (by decide) rfl

/-- Whitespace for Python `str.strip()`. -/
def isPySpace (c : Char) : Bool :=
  c = ' ' || c = '\t' || c = '\n' || c = '\r' || c = '\x0b' || c = '\x0c'

/-- Header cleanup of `process_data`:
`df.columns.str.replace('\n', ' ').str.strip()` — replace every newline
by a space, then strip surrounding whitespace (written over character
lists so that the kernel can evaluate it). -/
def cleanName (s : String) : String :=
  let replaced := s.data.map (fun c => if c = '\n' then ' ' else c)
  String.mk (((replaced.dropWhile isPySpace).reverse.dropWhile isPySpace).reverse)

/-- The normalizer's `rename_map` (post-cleanup spellings → canonical). -/
def renamePairs : List (String × String) :=
  [ ("Join Date (yyyy/mm/dd)", "Join Date")
  , ("Exit Date yyyy/mm/dd", "Exit Date")
  , ("Position (After Joining)", "Position After Joining") ]

/-- Column-name normalisation: cleanup plus `rename_map` (names not in
the map pass through unchanged). -/
def normName (s : String) : String :=
  let c := cleanName s
  (renamePairs.lookup c).getD c

/-- `save_to_excel`'s `reverse_map` (canonical → raw header, with the
original embedded newline). -/
def reversePairs : List (String × String) :=
  [ ("Join Date", "Join Date\n(yyyy/mm/dd)")
  , ("Exit Date", "Exit Date\nyyyy/mm/dd")
  , ("Position After Joining", "Position\n(After Joining)") ]

/-- Rename applied by the persistence adapter before writing. -/
def saveName (s : String) : String := (reversePairs.lookup s).getD s

/-- `save_to_excel`'s `calc_cols`: the derived columns dropped on save. -/
def calcCols : List String :=
  [ "Age", "Tenure (Months)", "Join Year", "Join Month", "Join Quarter"
  , "Exit Year", "Exit Month", "Probation Completed", "Employment Type" ]

/-- The names of the derived columns `process_data` actually adds to a
table with the given column-presence flags (in assignment order). -/
def derivedCols (f : RawFrame) : List String :=
  (if f.hasBirthday then ["Age"] else []) ++
  (if f.hasJoinDate then ["Tenure (Months)", "Join Year", "Join Month", "Join Quarter"] else []) ++
  (if f.hasExitDate then ["Exit Year", "Exit Month"] else []) ++
  (if f.hasProbEnd then ["Probation Completed"] else []) ++
  ["Employment Type"]

/-- The persistence adapter at the value level: dropping every derived
column of a `ProcFrame` leaves exactly its base table (the rename back to
raw headers is the name-level `saveName`). -/
def saveFrame (p : ProcFrame) : RawFrame := p.base

lemma fillRow_idem (f : RawFrame) (r : RawRecord) :
    fillRow f (fillRow f r) = fillRow f r := by
  unfold fillRow
  rcases f with ⟨rows, hs, hj, he, hb, hp, ht, hv, hn, hl, hg, hd, hpo, hx⟩
  dsimp only
  cases hv <;> cases hn <;> cases hl <;> simp

/-- C5: (1) the adapter's reverse map is the exact inverse of the
normalizer's header mapping — raw variant headers round-trip to
themselves, canonical names round-trip to themselves; (2) every column
the pipeline derives is in the adapter's drop list; (3) re-running the
pipeline on the adapter's output succeeds and reproduces the same
non-derived field values for every record. -/
theorem save_roundtrip (t t2 : ℤ) (f : RawFrame) (p : ProcFrame) :
    (∀ s ∈ ["Join Date\n(yyyy/mm/dd)", "Exit Date\nyyyy/mm/dd", "Position\n(After Joining)"],
        saveName (normName s) = s ∧ normName s ∈ ["Join Date", "Exit Date", "Position After Joining"]) ∧
    (∀ s ∈ ["Join Date", "Exit Date", "Position After Joining"], normName (saveName s) = s) ∧
    (∀ g : RawFrame, ∀ c ∈ derivedCols g, c ∈ calcCols) ∧
    (processData t f = .ok p →
      processData t2 (saveFrame p) = .ok (procResult t2 p.base) ∧
      (procResult t2 p.base).base = p.base) := by
  have hmem : ∀ (c : String) (b : Bool) (l : List String),
      c ∈ (if b then l else []) → c ∈ l := by
    intro c b l hc
    cases b
    · simp at hc
    · simpa using hc
  refine ⟨by decide, by decide, ?_, ?_⟩
  · intro g c hc
    unfold derivedCols at hc
    simp only [List.mem_append] at hc
    unfold calcCols
    rcases hc with ((((h | h) | h) | h) | h)
    · exact (by decide : ["Age"] ⊆
        ["Age", "Tenure (Months)", "Join Year", "Join Month", "Join Quarter", "Exit Year",
         "Exit Month", "Probation Completed", "Employment Type"]) (hmem _ _ _ h)
    · exact (by decide : ["Tenure (Months)", "Join Year", "Join Month", "Join Quarter"] ⊆
        ["Age", "Tenure (Months)", "Join Year", "Join Month", "Join Quarter", "Exit Year",
         "Exit Month", "Probation Completed", "Employment Type"]) (hmem _ _ _ h)
    · exact (by decide : ["Exit Year", "Exit Month"] ⊆
        ["Age", "Tenure (Months)", "Join Year", "Join Month", "Join Quarter", "Exit Year",
         "Exit Month", "Probation Completed", "Employment Type"]) (hmem _ _ _ h)
    · exact (by decide : ["Probation Completed"] ⊆
        ["Age", "Tenure (Months)", "Join Year", "Join Month", "Join Quarter", "Exit Year",
         "Exit Month", "Probation Completed", "Employment Type"]) (hmem _ _ _ h)
    · exact (by decide : ["Employment Type"] ⊆
        ["Age", "Tenure (Months)", "Join Year", "Join Month", "Join Quarter", "Exit Year",
         "Exit Month", "Probation Completed", "Employment Type"]) h
  · intro h
    obtain ⟨h1, h2, h3, h4⟩ := processData_ok_conds h
    have hbase : p.base = { f with rows := f.rows.map (fillRow f) } := by
      rw [processData_ok_eq h]
      rfl
    have hrows : List.map (fillRow { f with rows := List.map (fillRow f) f.rows })
        (List.map (fillRow f) f.rows) = List.map (fillRow f) f.rows := by
      rw [List.map_map]
      apply List.map_congr_left
      intro r _
      exact fillRow_idem f r
    constructor
    · unfold saveFrame processData
      rw [hbase]
      rw [if_neg h1, if_neg h2, if_neg h3, if_neg h4]
    · rw [hbase]
      unfold procResult
      rw [hrows]

/-- Sample processed-and-saved table for the C5 witness. -/
def c5Frame : RawFrame :=
  { rows := [ { status := some "Active", joinDate := some 19000, exitDate := none,
                vendor := none, nationality := some "Egyptian" } ]
    hasStatus := true, hasJoinDate := true, hasExitDate := true, hasVendor := true,
    hasNationality := true }

theorem save_roundtrip_witness :
    (saveName (normName "Join Date\n(yyyy/mm/dd)") = "Join Date\n(yyyy/mm/dd)" ∧
      normName "Join Date\n(yyyy/mm/dd)" ∈ ["Join Date", "Exit Date", "Position After Joining"]) ∧
    normName (saveName "Exit Date") = "Exit Date" ∧
    "Tenure (Months)" ∈ calcCols ∧
    (processData 20100 (saveFrame (procResult 20000 c5Frame)) =
        .ok (procResult 20100 (procResult 20000 c5Frame).base) ∧
      (procResult 20100 (procResult 20000 c5Frame).base).base = (procResult 20000 c5Frame).base) := by
  obtain ⟨ha, hb, hc, hd⟩ := save_roundtrip 20000 20100 c5Frame (procResult 20000 c5Frame)
  exact ⟨ha _ (by decide), hb _ (by decide),
    hc { rows := [], hasJoinDate := true } _ (by decide), hd rfl⟩

/-- `REQUIRED_COLUMNS` (src/app.py line 32 / src/src/config.py line 38). -/
def requiredColumns : List String :=
  ["Gender", "Department", "Position", "Employee Status", "Exit Type"]

/-- Presence of one of the required columns in a table. -/
def hasReqCol (f : RawFrame) (c : String) : Bool :=
  if c = "Gender" then f.hasGender
  else if c = "Department" then f.hasDepartment
  else if c = "Position" then f.hasPosition
  else if c = "Employee Status" then f.hasStatus
  else if c = "Exit Type" then f.hasExitType
  else false

/-- `[c for c in REQUIRED_COLUMNS if c not in df.columns]`. -/
def missingOf (f : RawFrame) : List String :=
  requiredColumns.filter (fun c => ! hasReqCol f c)

/-- Outcome of the sidebar ingestion in src/app.py (lines 59–76): a
caught exception shows the generic load error; otherwise the
required-column validation either reports the missing columns or accepts
the table.  In the first two outcomes `df` is set to `None`, so no
partial table reaches downstream stages. -/
inductive IngestResult where
  | loadError (msg : String)
  | missingColumns (cols : List String)
  | loaded (p : ProcFrame)
  deriving Repr

/-- The ingestion gate: `load_excel` (which runs `process_data` inside
the `try`) followed by the `REQUIRED_COLUMNS` validation. -/
def loadAndValidate (t : ℤ) (f : RawFrame) : IngestResult :=
  match processData t f with
  | .error e => .loadError ("Error loading file: " ++ e)
  | .ok p => if missingOf p.base = [] then .loaded p else .missingColumns (missingOf p.base)

/-- C6 counterexample input: `Employee Status` column missing while a
`Join Date` column is present. -/
def c6Frame : RawFrame :=
  { rows := [], hasStatus := false, hasJoinDate := true, hasExitDate := true }

/-- C6 counterexample: for this input, which is missing the required
`Employee Status` column, ingestion does NOT produce the named
missing-required-columns condition (which would have listed exactly
`["Employee Status"]`): `process_data` raises first (the Tenure block
indexes `df['Employee Status']`), and the generic load-error path is
taken instead — refuting the claim's "no other error is raised instead". -/
theorem ingestion_counterexample :
    loadAndValidate 20000 c6Frame = .loadError "Error loading file: KeyError: Employee Status" ∧
    missingOf c6Frame = ["Employee Status"] ∧
    (∀ l, loadAndValidate 20000 c6Frame ≠ .missingColumns l) := by
  refine ⟨rfl, rfl, fun l hl => ?_⟩
  rw [show loadAndValidate 20000 c6Frame
      = .loadError "Error loading file: KeyError: Employee Status" from rfl] at hl
  exact IngestResult.noConfusion hl

/-- C6 amended, for tables missing at least one required column:
(1) field derivation succeeds precisely when either neither a `Join
Date` nor a `Probation Period End Date` column is present, or both the
`Employee Status` and `Exit Date` columns are present (otherwise the
Tenure/Probation blocks index an absent column and the generic load
error aborts ingestion instead); (2) whenever derivation succeeds,
ingestion aborts with the named missing-required-columns condition
listing exactly the missing columns; (3) in every case no table is
exposed downstream while required columns are missing. -/
theorem ingestion_missing_columns (t : ℤ) (f : RawFrame)
    (hm : missingOf f ≠ []) :
    ((∃ p, processData t f = Except.ok p) ↔
      ((f.hasJoinDate = true ∨ f.hasProbEnd = true) →
        (f.hasStatus = true ∧ f.hasExitDate = true))) ∧
    (∀ p, processData t f = .ok p → loadAndValidate t f = .missingColumns (missingOf f)) ∧
    (∀ p, loadAndValidate t f ≠ .loaded p) := by
  have hiff : (∃ p, processData t f = Except.ok p) ↔
      ((f.hasJoinDate = true ∨ f.hasProbEnd = true) →
        (f.hasStatus = true ∧ f.hasExitDate = true)) := by
    constructor
    · rintro ⟨p, hp⟩
      obtain ⟨h1, h2, h3, h4⟩ := processData_ok_conds hp
      rintro (h | h)
      · exact ⟨Decidable.byContradiction fun hc => h1 ⟨h, hc⟩, Decidable.byContradiction fun hc => h2 ⟨h, hc⟩⟩
      · exact ⟨Decidable.byContradiction fun hc => h3 ⟨h, hc⟩, Decidable.byContradiction fun hc => h4 ⟨h, hc⟩⟩
    · intro himp
      have h1' : ¬(f.hasJoinDate = true ∧ ¬ f.hasStatus = true) :=
        fun hc => hc.2 (himp (Or.inl hc.1)).1
      have h2' : ¬(f.hasJoinDate = true ∧ ¬ f.hasExitDate = true) :=
        fun hc => hc.2 (himp (Or.inl hc.1)).2
      have h3' : ¬(f.hasProbEnd = true ∧ ¬ f.hasStatus = true) :=
        fun hc => hc.2 (himp (Or.inr hc.1)).1
      have h4' : ¬(f.hasProbEnd = true ∧ ¬ f.hasExitDate = true) :=
        fun hc => hc.2 (himp (Or.inr hc.1)).2
      refine ⟨procResult t f, ?_⟩
      unfold processData
      rw [if_neg h1', if_neg h2', if_neg h3', if_neg h4']
  refine ⟨hiff, ?_⟩
  have hmain : ∀ p, processData t f = .ok p →
      loadAndValidate t f = .missingColumns (missingOf f) := by
    intro p hp
    have hb : missingOf p.base = missingOf f := by
      rw [processData_ok_eq hp]
      rfl
    unfold loadAndValidate
    rw [hp]
    simp only [hb]
    rw [if_neg hm]
  refine ⟨hmain, fun p hl => ?_⟩
  cases hp : processData t f with
  | error e =>
      unfold loadAndValidate at hl
      rw [hp] at hl
      exact IngestResult.noConfusion hl
  | ok q =>
      rw [hmain q hp] at hl
      exact IngestResult.noConfusion hl

/-- Input for the C6-amended witness: only `Gender` is missing, and no
date-bearing column forces the Tenure block, so derivation succeeds. -/
def c6okFrame : RawFrame :=
  { rows := [{ status := some "Active" }], hasGender := false }

theorem ingestion_missing_columns_witness :
    ((∃ p, processData 20000 c6okFrame = Except.ok p) ↔
      ((c6okFrame.hasJoinDate = true ∨ c6okFrame.hasProbEnd = true) →
        (c6okFrame.hasStatus = true ∧ c6okFrame.hasExitDate = true))) ∧
    loadAndValidate 20000 c6okFrame = .missingColumns ["Gender"] ∧
    (∀ p, loadAndValidate 20000 c6okFrame ≠ .loaded p) := by
  obtain ⟨h0, h1, h2⟩ := ingestion_missing_columns 20000 c6okFrame (by decide)
  refine ⟨h0, ?_, h2⟩
  rw [h1 (procResult 20000 c6okFrame) rfl]
  rfl

/-- Case-insensitive substring containment, for
`str.contains('Freelancer|freelancer|Contract', case=False)`:
true iff `pat` (lowercase) occurs in `s` lowercased. -/
def strContainsCI (s pat : String) : Bool :=
  ((s.toLower).splitOn pat).length != 1

/-- A row of a processed/filtered subset as consumed by
`calculate_kpis`: `Employee Status` is always indexed by the function, so
it is a plain field; each optional column has a frame-level presence
flag in `KFrame`.  Tenure and Probation values are total (the deriver
fills them), `Age` is numeric, `Join Year` is null for a null join date. -/
structure KRecord where
  status : String
  tenure : ℚ := 0
  age : ℚ := 0
  employmentType : String := ""
  nationality : Option String := none
  gender : String := ""
  probation : String := ""
  joinYear : Option ℤ := none
  deriving Repr, DecidableEq

structure KFrame where
  rows : List KRecord := []
  hasTenure : Bool := false
  hasAge : Bool := false
  hasEmpType : Bool := false
  hasNationality : Bool := false
  hasGender : Bool := false
  hasProbation : Bool := false
  hasJoinYear : Bool := false
  deriving Repr, DecidableEq

/-- The KPI dictionary returned by `calculate_kpis`.  `avgTenure` and
`avgAge` are `Option ℚ` because `Series.mean()` of an empty selection is
`NaN` (= `none`); every other numeric entry is guarded against a zero
denominator in the source and hence a plain `ℚ`. -/
structure KpiResult where
  total : ℕ
  active : ℕ
  departed : ℕ
  attritionRate : ℚ
  retentionRate : ℚ
  avgTenure : Option ℚ
  avgAge : Option ℚ
  contractorRatio : ℚ
  nationalityCount : ℕ
  genderRatio : String
  maleCount : ℕ
  femaleCount : ℕ
  probationPassRate : ℚ
  growthRate : ℚ
  deriving Repr, DecidableEq

/-- `calculate_kpis` (src/data_processing.py, lines 98–156);
`currentYear` stands for `datetime.now().year`. -/
def calculateKpis (currentYear : ℤ) (f : KFrame) : KpiResult :=
  { total := f.rows.length
    active := (f.rows.filter (fun r => r.status = "Active")).length
    departed := (f.rows.filter (fun r => r.status = "Departed")).length
    attritionRate :=
      if 0 < f.rows.length then
        ((f.rows.filter (fun r => r.status = "Departed")).length : ℚ) / f.rows.length * 100
      else 0
    retentionRate :=
      if 0 < f.rows.length then
        ((f.rows.filter (fun r => r.status = "Active")).length : ℚ) / f.rows.length * 100
      else 0
    avgTenure := if f.hasTenure then meanQ (f.rows.map (fun r => r.tenure)) else some 0
    avgAge :=
      if f.hasAge then meanQ ((f.rows.filter (fun r => 0 < r.age)).map (fun r => r.age))
      else some 0
    contractorRatio :=
      if f.hasEmpType then
        if 0 < f.rows.length then
          ((f.rows.filter (fun r =>
              strContainsCI r.employmentType "freelancer" ||
              strContainsCI r.employmentType "contract")).length : ℚ) / f.rows.length * 100
        else 0
      else 0
    nationalityCount :=
      if f.hasNationality then ((f.rows.filterMap (fun r => r.nationality)).dedup).length else 0
    genderRatio :=
      toString (if f.hasGender then (f.rows.filter (fun r => r.gender = "M")).length else 0)
        ++ ":" ++
        toString (if f.hasGender then (f.rows.filter (fun r => r.gender = "F")).length else 0)
    maleCount := if f.hasGender then (f.rows.filter (fun r => r.gender = "M")).length else 0
    femaleCount := if f.hasGender then (f.rows.filter (fun r => r.gender = "F")).length else 0
    probationPassRate :=
      if f.hasProbation then
        if 0 < (f.rows.filter (fun r => r.probation ≠ "No Data")).length then
          (((f.rows.filter (fun r => r.probation ≠ "No Data")).filter (fun r =>
              r.probation = "Completed" ∨ r.probation = "Completed Before Exit")).length : ℚ)
            / (f.rows.filter (fun r => r.probation ≠ "No Data")).length * 100
        else 0
      else 0
    growthRate :=
      if f.hasJoinYear then
        if 0 < (f.rows.filter (fun r => r.joinYear = some (currentYear - 1))).length then
          (((f.rows.filter (fun r => r.joinYear = some currentYear)).length : ℚ)
              - ((f.rows.filter (fun r => r.joinYear = some (currentYear - 1))).length : ℚ))
            / ((f.rows.filter (fun r => r.joinYear = some (currentYear - 1))).length : ℚ) * 100
        else 0
      else 0 }

/-- C3: on the empty subset (any combination of derived-column presence
flags), the KPI aggregator is total (it raises nothing) and all five
rate fields are exactly 0. -/
theorem kpis_empty_all_rates_zero (y : ℤ) (b1 b2 b3 b4 b5 b6 b7 : Bool) :
    (calculateKpis y ⟨[], b1, b2, b3, b4, b5, b6, b7⟩).attritionRate = 0 ∧
    (calculateKpis y ⟨[], b1, b2, b3, b4, b5, b6, b7⟩).retentionRate = 0 ∧
    (calculateKpis y ⟨[], b1, b2, b3, b4, b5, b6, b7⟩).contractorRatio = 0 ∧
    (calculateKpis y ⟨[], b1, b2, b3, b4, b5, b6, b7⟩).probationPassRate = 0 ∧
    (calculateKpis y ⟨[], b1, b2, b3, b4, b5, b6, b7⟩).growthRate = 0 := by
  cases b3 <;> cases b6 <;> cases b7 <;> simp [calculateKpis]

/-- C1 counterexample input: one record whose Employee Status is neither
`Active` nor `Departed`. -/
def c1Frame : KFrame := { rows := [{ status := "On Leave" }] }

/-- C1 counterexample: on a non-empty subset containing a record whose
status is neither `Active` nor `Departed`, attrition + retention is 0,
not 100 (and not within 1e-6 of 100) — refuting the claim's "including
subsets containing records whose Employee Status is neither 'Active' nor
'Departed'". -/
theorem attrition_retention_counterexample :
    (calculateKpis 2026 c1Frame).attritionRate + (calculateKpis 2026 c1Frame).retentionRate = 0 ∧
    ¬ |(calculateKpis 2026 c1Frame).attritionRate
        + (calculateKpis 2026 c1Frame).retentionRate - 100| ≤ 1 / 1000000 := by
  have h0 : (calculateKpis 2026 c1Frame).attritionRate
      + (calculateKpis 2026 c1Frame).retentionRate = 0 := by
    simp [calculateKpis, c1Frame]
  refine ⟨h0, ?_⟩
  rw [h0]
  rw [show |(0 : ℚ) - 100| = 100 by rw [abs_of_nonpos] <;> norm_num]
  norm_num

lemma active_departed_split (l : List KRecord)
    (h : ∀ r ∈ l, r.status = "Active" ∨ r.status = "Departed") :
    (l.filter (fun r => r.status = "Active")).length
      + (l.filter (fun r => r.status = "Departed")).length = l.length := by
  induction l with
  | nil => rfl
  | cons r t ih =>
      have hr := h r (List.mem_cons_self r t)
      have ht := ih (fun x hx => h x (List.mem_cons_of_mem r hx))
      rcases hr with hr | hr <;> simp [List.filter_cons, hr] <;> omega

/-- C1 amended: for every non-empty subset in which each record's status
is `Active` or `Departed`, the returned attrition and retention rates sum
to 100.0 within floating tolerance 1e-6.  (In this rational model the
sum is exact; the program computes the two rates in IEEE doubles, where
the sum can differ from 100.0 in the last ulp — e.g. one Departed among
three records gives 99.99999999999999 — so the claim is kept in its
tolerance form.) -/
theorem attrition_retention_sum (y : ℤ) (f : KFrame)
    (hne : f.rows ≠ [])
    (hAD : ∀ r ∈ f.rows, r.status = "Active" ∨ r.status = "Departed") :
    |(calculateKpis y f).attritionRate + (calculateKpis y f).retentionRate - 100|
      ≤ 1 / 1000000 := by
  suffices hsum :
      (calculateKpis y f).attritionRate + (calculateKpis y f).retentionRate = 100 by
    rw [hsum]
    norm_num
  have hn : 0 < f.rows.length := List.length_pos.mpr hne
  have hsplit := active_departed_split f.rows hAD
  show (if 0 < f.rows.length then
          ((f.rows.filter (fun r => r.status = "Departed")).length : ℚ) / f.rows.length * 100
        else 0)
      + (if 0 < f.rows.length then
          ((f.rows.filter (fun r => r.status = "Active")).length : ℚ) / f.rows.length * 100
        else 0) = 100
  rw [if_pos hn, if_pos hn]
  have hcast : ((f.rows.filter (fun r => r.status = "Departed")).length : ℚ)
      + ((f.rows.filter (fun r => r.status = "Active")).length : ℚ)
      = (f.rows.length : ℚ) := by
    exact_mod_cast (by omega : (f.rows.filter (fun r => r.status = "Departed")).length
      + (f.rows.filter (fun r => r.status = "Active")).length = f.rows.length)
  have hq : (f.rows.length : ℚ) ≠ 0 := ne_of_gt (by exact_mod_cast hn)
  field_simp
  linarith [hcast]

/-- C1 amended witness input: one Active, one Departed record. -/
def c1okFrame : KFrame := { rows := [{ status := "Active" }, { status := "Departed" }] }

theorem attrition_retention_sum_witness :
    |(calculateKpis 2026 c1okFrame).attritionRate
      + (calculateKpis 2026 c1okFrame).retentionRate - 100| ≤ 1 / 1000000 :=
  attrition_retention_sum 2026 c1okFrame (by decide) (by decide)

/-- C10: the 0 default for `avg_age` applies only when the `Age` column
is absent; when the column is present but no row has `Age > 0` (the empty
subset included) the mean is `NaN` (`none`), not 0 — and likewise
`avg_tenure` is `NaN` on an empty subset with the Tenure column present. -/
theorem avg_age_nan_not_zero (y : ℤ) (f : KFrame) :
    (f.hasAge = true → f.rows.filter (fun r => 0 < r.age) = [] →
        (calculateKpis y f).avgAge = none) ∧
    (f.hasAge = false → (calculateKpis y f).avgAge = some 0) ∧
    (f.hasTenure = true → f.rows = [] → (calculateKpis y f).avgTenure = none) := by
  refine ⟨fun h1 h2 => ?_, fun h1 => ?_, fun h1 h2 => ?_⟩
  · show (if f.hasAge then meanQ ((f.rows.filter (fun r => 0 < r.age)).map (fun r => r.age))
        else some 0) = none
    rw [h1, if_pos rfl, h2]
    rfl
  · show (if f.hasAge then meanQ ((f.rows.filter (fun r => 0 < r.age)).map (fun r => r.age))
        else some 0) = some 0
    rw [h1]
    rfl
  · show (if f.hasTenure then meanQ (f.rows.map (fun r => r.tenure)) else some 0) = none
    rw [h1, if_pos rfl, h2]
    rfl

theorem avg_age_nan_not_zero_witness :
    (calculateKpis 2026 { rows := [{ status := "Active", age := 0 }], hasAge := true }).avgAge = none ∧
    (calculateKpis 2026 { rows := [{ status := "Active", age := 0 }] }).avgAge = some 0 ∧
    (calculateKpis 2026 { rows := [], hasTenure := true }).avgTenure = none :=
  ⟨(avg_age_nan_not_zero 2026 _).1 rfl rfl,
   (avg_age_nan_not_zero 2026 _).2.1 rfl,
   (avg_age_nan_not_zero 2026 _).2.2 rfl rfl⟩

/-- The survival-curve value generated per month by the advanced
analytics page: `len(df[df['Tenure (Months)'] > m]) / total * 100`. -/
def survivalRate (tenures : List ℚ) (m : ℕ) : ℚ :=
  ((tenures.filter (fun x => (m : ℚ) < x)).length : ℚ) / tenures.length * 100

/-- Claim-side quantity: the fraction of the subset with Tenure strictly
greater than the month. -/
def survivalFrac (tenures : List ℚ) (m : ℕ) : ℚ :=
  ((tenures.filter (fun x => (m : ℚ) < x)).length : ℚ) / tenures.length

/-- The survival table built by the page (src/src/pages/advanced_analytics.py
lines 215–225 and the identical tab in src/app.py lines 1022–1034):
`max_tenure = int(max)`, `months = range(0, min(max_tenure + 1, 121))`,
one `(Month, Survived, Survival Rate %)` row per month.  Only reached
when the subset is non-empty (`max?` is `some`). -/
def survivalData (tenures : List ℚ) : List (ℕ × ℕ × ℚ) :=
  match tenures.max? with
  | none => []
  | some mx =>
      (List.range (min (ratTrunc mx + 1) 121).toNat).map
        (fun m => (m, (tenures.filter (fun x => (m : ℚ) < x)).length, survivalRate tenures m))

/-- C8: for a non-empty subset (with the non-negative tenures the
deriver produces), the survival table has exactly the months `m` with
`m ≤ min(max observed tenure, 120)`; each point carries the fraction of
the subset with Tenure strictly greater than that month (expressed as a
percentage, `Survival Rate % = 100 × fraction`); and the rate is
monotonically non-increasing in the month. -/
theorem survival_curve_spec (tenures : List ℚ) (mx : ℚ)
    (hne : tenures ≠ []) (hnn : ∀ x ∈ tenures, 0 ≤ x)
    (hmx : tenures.max? = some mx) :
    (∀ m : ℕ, m ∈ (survivalData tenures).map (fun p => p.1) ↔ ((m : ℚ) ≤ mx ∧ m ≤ 120)) ∧
    (∀ p ∈ survivalData tenures, p.2.2 = 100 * survivalFrac tenures p.1) ∧
    (∀ m n : ℕ, m ≤ n → survivalRate tenures n ≤ survivalRate tenures m) := by
  have hmem : mx ∈ tenures := List.max?_mem (fun a b => max_choice a b) hmx
  have hmx0 : 0 ≤ mx := hnn mx hmem
  have htr : ratTrunc mx = ⌊mx⌋ := if_pos hmx0
  have hfl0 : 0 ≤ ⌊mx⌋ := Int.floor_nonneg.mpr hmx0
  refine ⟨?_, ?_, ?_⟩
  · intro m
    have hdata : (survivalData tenures).map (fun p => p.1)
        = List.range ((ratTrunc mx + 1) ⊓ 121).toNat := by
      unfold survivalData
      rw [hmx, List.map_map]
      simp [Function.comp_def]
    rw [hdata, List.mem_range, htr]
    constructor
    · intro hk
      refine ⟨?_, by omega⟩
      have hmz : (m : ℤ) ≤ ⌊mx⌋ := by omega
      exact_mod_cast Int.le_floor.mp hmz
    · rintro ⟨h1, h2⟩
      have hmf : (m : ℤ) ≤ ⌊mx⌋ := Int.le_floor.mpr (by exact_mod_cast h1)
      omega
  · intro p hp
    unfold survivalData at hp
    rw [hmx] at hp
    simp only [List.mem_map, List.mem_range] at hp
    obtain ⟨k, _, rfl⟩ := hp
    unfold survivalRate survivalFrac
    ring
  · intro m n hmn
    unfold survivalRate
    have hlen : 0 < (tenures.length : ℚ) := by
      have := List.length_pos.mpr hne
      exact_mod_cast this
    have hcount : (tenures.filter (fun x => (n : ℚ) < x)).length
        ≤ (tenures.filter (fun x => (m : ℚ) < x)).length := by
      rw [← List.countP_eq_length_filter, ← List.countP_eq_length_filter]
      apply List.countP_mono_left
      intro x _ hx
      simp only [decide_eq_true_eq] at hx ⊢
      calc (m : ℚ) ≤ (n : ℚ) := by exact_mod_cast hmn
        _ < x := hx
    have hdiv := (div_le_div_iff_of_pos_right hlen).mpr
      (by exact_mod_cast hcount :
        ((tenures.filter (fun x => (n : ℚ) < x)).length : ℚ)
          ≤ ((tenures.filter (fun x => (m : ℚ) < x)).length : ℚ))
    exact mul_le_mul_of_nonneg_right hdiv (by norm_num)

theorem survival_curve_spec_witness :
    ((5 : ℕ) ∈ (survivalData [6, 2, 0]).map (fun p => p.1)
        ↔ ((5 : ℚ) ≤ 6 ∧ (5 : ℕ) ≤ 120)) ∧
    survivalRate [6, 2, 0] 3 ≤ survivalRate [6, 2, 0] 1 := by
  obtain ⟨h1, h2, h3⟩ := survival_curve_spec [6, 2, 0] 6
    (by decide) (by decide) (by decide)
  exact ⟨h1 5, h3 1 3 (by norm_num)⟩

/-- Lexicographic (code-point) string order, the order Python uses on
`str` and pandas uses when sorting mode results and group keys; written
over character lists so that the kernel can evaluate it. -/
def strLeChars : List Char → List Char → Bool
  | [], _ => true
  | _ :: _, [] => false
  | a :: as, b :: bs => if a = b then strLeChars as bs else decide (a < b)

def pyStrLe (a b : String) : Bool := strLeChars a.data b.data

/-- The sort relation for strings. -/
def rStrLe (a b : String) : Prop := pyStrLe a b = true

instance : DecidableRel rStrLe := fun a b => instDecidableEqBool (pyStrLe a b) true

lemma strLeChars_total : ∀ as bs : List Char,
    strLeChars as bs = true ∨ strLeChars bs as = true := by
  intro as
  induction as with
  | nil => intro bs; left; rfl
  | cons a at' ih =>
      intro bs
      cases bs with
      | nil => right; rfl
      | cons b bt =>
          by_cases hab : a = b
          · subst hab
            unfold strLeChars
            rw [if_pos rfl, if_pos rfl]
            exact ih bt
          · unfold strLeChars
            rw [if_neg hab, if_neg (Ne.symm hab)]
            rcases lt_or_gt_of_ne hab with h | h
            · left; simpa using h
            · right; simpa using h

lemma strLeChars_trans : ∀ as bs cs : List Char,
    strLeChars as bs = true → strLeChars bs cs = true → strLeChars as cs = true := by
  intro as
  induction as with
  | nil => intro bs cs _ _; rfl
  | cons a at' ih =>
      intro bs cs h1 h2
      cases bs with
      | nil => simp [strLeChars] at h1
      | cons b bt =>
          cases cs with
          | nil => simp [strLeChars] at h2
          | cons c ct =>
              unfold strLeChars at h1 h2 ⊢
              by_cases hab : a = b <;> by_cases hbc : b = c
              · subst hab; subst hbc
                rw [if_pos rfl] at h1 h2 ⊢
                exact ih bt ct h1 h2
              · subst hab
                rw [if_pos rfl] at h1
                rw [if_neg hbc] at h2 ⊢
                exact h2
              · subst hbc
                rw [if_pos rfl] at h2
                rw [if_neg hab] at h1 ⊢
                exact h1
              · rw [if_neg hab] at h1
                rw [if_neg hbc] at h2
                simp only [decide_eq_true_eq] at h1 h2
                have hac : a < c := lt_trans h1 h2
                rw [if_neg (ne_of_lt hac)]
                simpa using hac

instance : IsTotal String rStrLe := ⟨fun a b => strLeChars_total a.data b.data⟩

instance : IsTrans String rStrLe := ⟨fun a b c => strLeChars_trans a.data b.data c.data⟩

/-- A row of the frame consumed by `get_manager_attrition`.  `Full Name`
and `Exit Reason Category` are modelled as total string fields (the
`Full Name` count in the source tallies non-null names, which under this
data model is the group size); `Tenure (Months)` is total because the
deriver null-fills it; the manager identifier is nullable, since the
`.notna()` filter on it is central to the analyzer. -/
structure MRecord where
  fullName : String := ""
  status : String
  manager : Option String := none
  tenure : ℚ := 0
  exitReason : String := ""
  deriving Repr, DecidableEq

structure MFrame where
  rows : List MRecord := []
  hasManagerCol : Bool := true
  deriving Repr, DecidableEq

/-- One output row: `['Manager CRM', 'Departures', 'Avg Tenure (Months)',
'Top Exit Reason']`. -/
structure MRow where
  managerCRM : String
  departures : ℕ
  avgTenure : ℚ
  topReason : String
  deriving Repr, DecidableEq

/-- `sort_values('Departures', ascending=False)` order. -/
def mrowGE (a b : MRow) : Prop := b.departures ≤ a.departures

instance : DecidableRel mrowGE := fun a b => Nat.decLe b.departures a.departures

instance : IsTotal MRow mrowGE := ⟨fun a b => Nat.le_total b.departures a.departures⟩

instance : IsTrans MRow mrowGE := ⟨fun _ _ _ hab hbc => le_trans hbc hab⟩

/-- The largest per-value occurrence count in a list. -/
def maxCount (l : List String) : ℕ :=
  ((l.dedup).map (fun v => l.count v)).foldr max 0

/-- `Series.mode()`: all values attaining the maximal count, sorted
ascending (pandas sorts the mode result). -/
def modeList (l : List String) : List String :=
  List.insertionSort rStrLe ((l.dedup).filter (fun v => l.count v = maxCount l))

/-- `x.mode().iloc[0] if len(x.mode()) > 0 else 'N/A'`. -/
def topReasonOf (l : List String) : String := (modeList l).headD "N/A"

/-- One aggregated group: departure count (count of non-null `Full
Name` = group size here), mean tenure rounded to one decimal, modal exit
reason. -/
def aggRow (wm : List MRecord) (k : String) : MRow :=
  { managerCRM := k
    departures := (wm.filter (fun r => r.manager = some k)).length
    avgTenure := round1 (((wm.filter (fun r => r.manager = some k)).map (fun r => r.tenure)).sum
      / ((wm.filter (fun r => r.manager = some k)).length : ℚ))
    topReason := topReasonOf ((wm.filter (fun r => r.manager = some k)).map (fun r => r.exitReason)) }

/-- The distinct manager identifiers, ascending (`groupby` sorts keys). -/
def managerKeys (wm : List MRecord) : List String :=
  List.insertionSort rStrLe ((wm.filterMap (fun r => r.manager)).dedup)

/-- `get_manager_attrition` (src/data_processing.py, lines 175–193):
empty if the manager column is absent or no Departed record exists;
otherwise one aggregate row per manager over the Departed records with a
non-null manager identifier, sorted descending by departure count. -/
def getManagerAttrition (f : MFrame) : List MRow :=
  if ¬ f.hasManagerCol then []
  else if f.rows.filter (fun r => r.status = "Departed") = [] then []
  else
    List.insertionSort mrowGE
      ((managerKeys ((f.rows.filter (fun r => r.status = "Departed")).filter
          (fun r => r.manager.isSome))).map
        (aggRow ((f.rows.filter (fun r => r.status = "Departed")).filter
          (fun r => r.manager.isSome))))

/-- The claim's "first-encountered mode": the first value of the
sequence attaining the maximal count. -/
def firstMode (l : List String) : String :=
  (l.find? (fun v => l.count v = maxCount l)).getD "N/A"

/-- A modal value: occurs in the list, with no value occurring more
often. -/
def isModeOf (l : List String) (v : String) : Prop :=
  v ∈ l ∧ ∀ w, l.count w ≤ l.count v

/-- C7 counterexample input: one manager with two departures whose exit
reason categories are distinct (a tie), encountered as "Zebra" first. -/
def c7Frame : MFrame :=
  { rows :=
      [ { fullName := "E1", status := "Departed", manager := some "M",
          tenure := 10, exitReason := "Zebra" }
      , { fullName := "E2", status := "Departed", manager := some "M",
          tenure := 20, exitReason := "Apple" } ]
    hasManagerCol := true }

/-- C7 counterexample: on a tie, `Series.mode()` returns the modal
values sorted ascending, so the analyzer reports "Apple" — not the
first-encountered mode "Zebra" the claim prescribes. -/
theorem manager_mode_counterexample :
    (getManagerAttrition c7Frame).map (fun row => row.topReason) = ["Apple"] ∧
    firstMode ["Zebra", "Apple"] = "Zebra" ∧
    "Apple" ≠ "Zebra" := by
  refine ⟨?_, rfl, by decide⟩
  rfl

lemma le_foldr_max (x : ℕ) : ∀ l : List ℕ, x ∈ l → x ≤ l.foldr max 0 := by
  intro l
  induction l with
  | nil => intro h; exact absurd h (List.not_mem_nil x)
  | cons y ys ih =>
      intro h
      rcases List.mem_cons.mp h with h | h
      · subst h; exact le_max_left _ _
      · exact le_trans (ih h) (le_max_right _ _)

lemma foldr_max_mem : ∀ l : List ℕ, l.foldr max 0 ∈ l ∨ l.foldr max 0 = 0 := by
  intro l
  induction l with
  | nil => right; rfl
  | cons y ys ih =>
      rcases max_choice y (ys.foldr max 0) with h | h
      · left; simp only [List.foldr_cons, h]; exact List.mem_cons_self y ys
      · rcases ih with ih | ih
        · left; simp only [List.foldr_cons, h]; exact List.mem_cons_of_mem y ih
        · right; simp only [List.foldr_cons]; rw [h, ih]

lemma count_le_maxCount (l : List String) (v : String) : l.count v ≤ maxCount l := by
  by_cases hv : v ∈ l
  · exact le_foldr_max _ _ (List.mem_map_of_mem _ (List.mem_dedup.mpr hv))
  · simp [List.count_eq_zero.mpr hv]

lemma maxCount_attained (l : List String) (hne : l ≠ []) :
    ∃ v ∈ l, l.count v = maxCount l := by
  rcases foldr_max_mem ((l.dedup).map (fun v => l.count v)) with h | h
  · simp only [List.mem_map] at h
    obtain ⟨v, hvd, hvc⟩ := h
    exact ⟨v, List.mem_dedup.mp hvd, hvc⟩
  · obtain ⟨v0, hv0⟩ := List.exists_mem_of_ne_nil l hne
    have h1 : 0 < l.count v0 := List.count_pos_iff.mpr hv0
    have h2 : l.count v0 ≤ maxCount l := count_le_maxCount l v0
    unfold maxCount at h2
    omega

lemma mem_modeList_iff (l : List String) (v : String) :
    v ∈ modeList l ↔ v ∈ l.dedup ∧ l.count v = maxCount l := by
  unfold modeList
  rw [(List.perm_insertionSort rStrLe _).mem_iff]
  simp [List.mem_filter]

lemma rStrLe_refl (a : String) : rStrLe a a :=
  (strLeChars_total a.data a.data).elim id id

/-- C7 amended: the analyzer returns empty when the manager column is
absent or no Departed records exist; otherwise its output is sorted
descending by departure count and is a permutation of one aggregate row
per distinct manager among Departed records with a non-null manager
identifier (departure count = group size, mean tenure rounded to one
decimal, modal exit reason).  Ties between modal exit reasons are broken
by the lexicographically smallest modal value (pandas sorts the mode
result), not by first encounter: `topReasonOf` is a mode and precedes
every mode in code-point order. -/
theorem manager_attrition_amended (f : MFrame) :
    (f.hasManagerCol = false → getManagerAttrition f = []) ∧
    (f.rows.filter (fun r => r.status = "Departed") = [] → getManagerAttrition f = []) ∧
    List.Sorted mrowGE (getManagerAttrition f) ∧
    (getManagerAttrition f).Perm
      (if f.hasManagerCol = true ∧ f.rows.filter (fun r => r.status = "Departed") ≠ [] then
        (managerKeys ((f.rows.filter (fun r => r.status = "Departed")).filter
            (fun r => r.manager.isSome))).map
          (aggRow ((f.rows.filter (fun r => r.status = "Departed")).filter
            (fun r => r.manager.isSome)))
      else []) ∧
    (∀ l : List String, l ≠ [] →
      isModeOf l (topReasonOf l) ∧ ∀ v, isModeOf l v → rStrLe (topReasonOf l) v) := by
  refine ⟨?_, ?_, ?_, ?_, ?_⟩
  · intro h
    simp [getManagerAttrition, h]
  · intro h
    unfold getManagerAttrition
    rw [h]
    split_ifs <;> rfl
  · unfold getManagerAttrition
    split_ifs <;>
      first
        | exact List.sorted_nil
        | exact List.sorted_insertionSort mrowGE _
  · unfold getManagerAttrition
    split_ifs <;>
      first
        | exact List.Perm.refl _
        | exact List.perm_insertionSort mrowGE _
        | simp_all
  · intro l hne
    obtain ⟨v0, hv0l, hv0c⟩ := maxCount_attained l hne
    have hvm : v0 ∈ modeList l := (mem_modeList_iff l v0).mpr ⟨List.mem_dedup.mpr hv0l, hv0c⟩
    cases hml : modeList l with
    | nil => rw [hml] at hvm; exact absurd hvm (List.not_mem_nil v0)
    | cons a rest =>
        have htop : topReasonOf l = a := by unfold topReasonOf; rw [hml]; rfl
        have ham : a ∈ modeList l := by rw [hml]; exact List.mem_cons_self a rest
        obtain ⟨had, hac⟩ := (mem_modeList_iff l a).mp ham
        constructor
        · rw [htop]
          exact ⟨List.mem_dedup.mp had, fun w => hac ▸ count_le_maxCount l w⟩
        · intro v hv
          obtain ⟨hvl, hvmax⟩ := hv
          have hvcount : l.count v = maxCount l :=
            le_antisymm (count_le_maxCount l v) (hv0c ▸ hvmax v0)
          have hvml : v ∈ modeList l :=
            (mem_modeList_iff l v).mpr ⟨List.mem_dedup.mpr hvl, hvcount⟩
          rw [hml] at hvml
          rw [htop]
          rcases List.mem_cons.mp hvml with h | h
          · subst h; exact rStrLe_refl v
          · have hsorted : List.Sorted rStrLe (modeList l) :=
              List.sorted_insertionSort rStrLe _
            rw [hml] at hsorted
            exact List.rel_of_sorted_cons hsorted v h

/-- The spec's own example for the C7 witness: two departures under
"Alice", one under "Bob". -/
def c7wFrame : MFrame :=
  { rows :=
      [ { fullName := "E1", status := "Departed", manager := some "Alice",
          tenure := 4, exitReason := "Personal" }
      , { fullName := "E2", status := "Departed", manager := some "Alice",
          tenure := 2, exitReason := "Personal" }
      , { fullName := "E3", status := "Departed", manager := some "Bob",
          tenure := 9, exitReason := "Salary" } ]
    hasManagerCol := true }

theorem manager_attrition_amended_witness :
    getManagerAttrition { rows := [{ status := "Active" }], hasManagerCol := false } = [] ∧
    List.Sorted mrowGE (getManagerAttrition c7wFrame) ∧
    (isModeOf ["Personal", "Personal", "Salary"] (topReasonOf ["Personal", "Personal", "Salary"]) ∧
      ∀ v, isModeOf ["Personal", "Personal", "Salary"] v →
        rStrLe (topReasonOf ["Personal", "Personal", "Salary"]) v) := by
  refine ⟨?_, ?_, ?_⟩
  · exact (manager_attrition_amended
      { rows := [{ status := "Active" }], hasManagerCol := false }).1 rfl
  · exact (manager_attrition_amended c7wFrame).2.2.1
  · exact (manager_attrition_amended c7wFrame).2.2.2.2
      ["Personal", "Personal", "Salary"] (by decide)
